import Mathlib

/-!
Verification of the navigation-tree logic of the documentation theme
(`src/docs/theme/index.js`) and of the sortable type guard
(`src/packages/sortable/src/types/type-guard.ts`).

Paths, routes and locales are modelled as `List Char` (JavaScript strings).
The shallow embedding below translates, from the source:

* `getFSRoute` — the path normalizer.  The source builds its regexes with
  `new RegExp('/index(/|$)')` and `new RegExp(`\.${locale}(\/|$)`)` and calls
  `String.prototype.replace` with replacement `'$1'`.  `replace` with a
  non-global regex rewrites only the leftmost match.  Inside a JavaScript
  template literal the escape `\.` collapses to the single character `.`,
  so the locale pattern actually begins with the regex wildcard dot (any
  character except a line terminator), followed by the locale text, followed
  by `(/|$)`.  The embedding implements exactly that leftmost-match
  rewriting.  It covers locales built from plain characters (letters,
  digits, hyphens — every real locale tag); a locale containing regex
  syntax changes or invalidates the constructed pattern, which is treated
  separately (`getFSRouteChecked`).
* the sidebar tree (`Menu` / `Folder` / `File` components): the module-wide
  `TreeState` map, the resolved `open` boolean, the `active` comparison,
  the `useEffect` that force-writes `true` for an active folder, the
  `onClick` toggle handler, and the rendered row structure in which the
  children of a closed folder sit inside a `display:none` wrapper.
* `hasSortableData` — the type guard, over a small universe of JavaScript
  values with JavaScript truthiness, the `in` operator (a `TypeError` on a
  non-object operand) and `typeof x === 'object'` (true for `null` and for
  objects).
-/

/-! ## Path normalizer (`getFSRoute`) -/

/-- Does `l` occur at the very start of `s`?  (Plain character-list
comparison; used for the literal locale text inside the pattern.) -/
def beginsWith : List Char → List Char → Bool
  | [], _ => true
  | _ :: _, [] => false
  | p :: ps, c :: cs => decide (p = c) && beginsWith ps cs

/-- Semantics of the regex wildcard `.` without flags: any character except
a line terminator (LF, CR, LS, PS). -/
def dotAny (c : Char) : Bool :=
  !(decide (c = Char.ofNat 10) || decide (c = Char.ofNat 13) ||
    decide (c = Char.ofNat 0x2028) || decide (c = Char.ofNat 0x2029))

/-- Does the group `(/|$)` match at the start of `s`?  It matches a slash or
the end of the input. -/
def slashOrEnd : List Char → Bool
  | [] => true
  | c :: _ => decide (c = '/')

/-- Does the pattern `/index(/|$)` match at the start of `s`? -/
def isIndexMatchAt (s : List Char) : Bool :=
  beginsWith "/index".toList s && slashOrEnd (s.drop 6)

/-- One application of `asPath.replace(new RegExp('/index(/|$)'), '$1')`:
rewrite the leftmost match, which amounts to deleting the six characters
`/index` there (the captured separator is written back unchanged).  Without
a match the string is returned untouched. -/
def replaceIndexOnce : List Char → List Char
  | [] => []
  | c :: cs => if isIndexMatchAt (c :: cs) then (c :: cs).drop 6
               else c :: replaceIndexOnce cs

/-- Does the pattern `.{locale}(/|$)` (leading wildcard dot, then the locale
text literally, then slash-or-end) match at the start of `s`? -/
def isLocaleMatchAt (l : List Char) : List Char → Bool
  | [] => false
  | c :: cs => dotAny c && beginsWith l cs && slashOrEnd (cs.drop l.length)

/-- One application of the locale replace: rewrite the leftmost match of
`.{locale}(/|$)`, deleting `1 + l.length` characters there (the captured
separator survives).  Without a match the string is returned untouched. -/
def replaceLocaleOnce (l : List Char) : List Char → List Char
  | [] => []
  | c :: cs => if isLocaleMatchAt l (c :: cs) then (c :: cs).drop (1 + l.length)
               else c :: replaceLocaleOnce l cs

/-- Translation of `getFSRoute`.  The guard `!locale` is JavaScript
truthiness: both an absent locale and the empty string take the first
branch.  With a locale present, the locale rewrite runs first, the
`/index` rewrite second. -/
def getFSRoute (asPath : List Char) (locale : Option (List Char)) : List Char :=
  match locale with
  | none => replaceIndexOnce asPath
  | some [] => replaceIndexOnce asPath
  | some (c :: ls) => replaceIndexOnce (replaceLocaleOnce (c :: ls) asPath)

/-- Is there a match of `/index(/|$)` anywhere in `s`? -/
def hasIndexMatch : List Char → Bool
  | [] => false
  | c :: cs => isIndexMatchAt (c :: cs) || hasIndexMatch cs

/-- Is there a match of `.{l}(/|$)` anywhere in `s`? -/
def hasLocaleMatch (l : List Char) : List Char → Bool
  | [] => false
  | c :: cs => isLocaleMatchAt l (c :: cs) || hasLocaleMatch l cs

/-- Do the patterns used by `getFSRoute` under locale `loc` match anywhere
in `s`?  When this is `false`, both `replace` calls leave `s` untouched. -/
def normTouches : Option (List Char) → List Char → Bool
  | none, s => hasIndexMatch s
  | some [], s => hasIndexMatch s
  | some (c :: ls), s => hasLocaleMatch (c :: ls) s || hasIndexMatch s

/-- Position of the leftmost match of `.{l}(/|$)` in `s`, if any. -/
def firstLocaleMatchPos (l : List Char) : List Char → Option Nat
  | [] => none
  | c :: cs => if isLocaleMatchAt l (c :: cs) then some 0
               else (firstLocaleMatchPos l cs).map (· + 1)

/-- Spec-side definition, following the specification's words (section 4.1):
a match of the locale pattern starts with a LITERAL dot character, then the
locale text taken literally, then slash-or-end.  This is what the
specification prescribes; the source's pattern differs (wildcard dot). -/
def isLocaleLiteralMatchAt (l : List Char) : List Char → Bool
  | [] => false
  | c :: cs => decide (c = '.') && beginsWith l cs && slashOrEnd (cs.drop l.length)

/-- Spec-side definition: remove the leftmost LITERAL `.{locale}` segment,
as the specification's words describe the locale-stripping step. -/
def replaceLocaleLiteralOnce (l : List Char) : List Char → List Char
  | [] => []
  | c :: cs => if isLocaleLiteralMatchAt l (c :: cs) then (c :: cs).drop (1 + l.length)
               else c :: replaceLocaleLiteralOnce l cs

/-- The pattern string the source hands to `new RegExp` for the locale
rewrite: the template literal `\.${locale}(\/|$)` evaluates to the
characters `.` ++ locale ++ `(/|$)` (the backslashes do not survive the
template literal). -/
def localePattern (l : List Char) : List Char :=
  '.' :: l ++ "(/|$)".toList

/-- Scanner checking that the group parentheses of a regex pattern are
balanced, skipping escaped characters and character classes (inside
`[...]` a parenthesis is literal).  Balance is a necessary condition for
the ECMAScript `RegExp` constructor to accept the pattern: when this scan
fails, `new RegExp` throws a `SyntaxError`.  (The converse is not claimed:
a balanced pattern may still be rejected for other reasons.)  A trailing
lone backslash is likewise always rejected. -/
def parensScan : List Char → Nat → Bool → Bool
  | [], d, _ => decide (d = 0)
  | '\\' :: [], _, _ => false
  | '\\' :: _ :: rest, d, ic => parensScan rest d ic
  | '[' :: rest, d, false => parensScan rest d true
  | ']' :: rest, d, true => parensScan rest d false
  | '(' :: rest, d, false => parensScan rest (d + 1) false
  | ')' :: rest, d, false => if d = 0 then false else parensScan rest (d - 1) false
  | _ :: rest, d, ic => parensScan rest d ic

/-- Does the pattern pass the parenthesis-balance scan? -/
def regexGroupsOk (p : List Char) : Bool :=
  parensScan p 0 false

/-- Translation of `getFSRoute` that also models the possible `SyntaxError`
of `new RegExp`: when the locale is interpolated into the pattern and the
resulting pattern is not a well-formed regex (here detected by the
parenthesis scan), the JavaScript call throws instead of returning a
string; this is the `Except.error` branch. -/
def getFSRouteChecked (asPath : List Char) (locale : Option (List Char)) :
    Except Unit (List Char) :=
  match locale with
  | none => Except.ok (replaceIndexOnce asPath)
  | some [] => Except.ok (replaceIndexOnce asPath)
  | some (c :: ls) =>
      if regexGroupsOk (localePattern (c :: ls)) then
        Except.ok (replaceIndexOnce (replaceLocaleOnce (c :: ls) asPath))
      else Except.error ()

/-! ## Sidebar tree model and expansion state -/

/-- Navigation forest: the `dir` array that `Menu` maps over.  An item with
a `children` array renders as a `Folder`, an item without one as a `File`
(a leaf page).  `rest` is the remainder of the sibling sequence, so the
display order of siblings is part of the structure. -/
inductive Forest where
  | nil : Forest
  | page (name route : List Char) (rest : Forest) : Forest
  | folder (name route : List Char) (children : Forest) (rest : Forest) : Forest

/-- The module-wide `TreeState` mapping: route string to boolean.  The
source assigns `TreeState[item.route] = b`; an assignment shadows the
previous binding, which the list model realises by consing. -/
abbrev TreeState := List (List Char × Bool)

/-- Read `TreeState[r]`: the most recent binding of `r`, or `none` when the
route was never written (JavaScript `undefined`). -/
def lookupSt : TreeState → List Char → Option Bool
  | [], _ => none
  | (k, b) :: rest, r => if k = r then some b else lookupSt rest r

/-- Write `TreeState[r] = b`. -/
def writeEntry (st : TreeState) (r : List Char) (b : Bool) : TreeState :=
  (r, b) :: st

/-- Translation of the `active` computation shared by `Folder` and `File`:
`getFSRoute(asPath, locale) + '/' === item.route + '/'`. -/
def nodeActive (asPath : List Char) (locale : Option (List Char)) (route : List Char) : Bool :=
  decide (getFSRoute asPath locale ++ ['/'] = route ++ ['/'])

/-- Translation of `open = TreeState[item.route] ?? !defaultMenuCollapsed`:
the explicit entry when present, else the default policy. -/
def resolvedOpen (st : TreeState) (defaultMenuCollapsed : Bool) (route : List Char) : Bool :=
  (lookupSt st route).getD (!defaultMenuCollapsed)

/-- Active-route discovery: every mounted `Folder` runs
`useEffect(() => { if (active) TreeState[item.route] = true })`.  All
folders of the forest are mounted — the children of a closed folder sit in
a `display:none` wrapper but still render — so the effect runs for every
folder node, in traversal order. -/
def discover (asPath : List Char) (locale : Option (List Char)) :
    TreeState → Forest → TreeState
  | st, .nil => st
  | st, .page _ _ rest => discover asPath locale st rest
  | st, .folder _ r cs rest =>
      discover asPath locale
        (discover asPath locale
          (if nodeActive asPath locale r then writeEntry st r true else st) cs)
        rest

/-- Does the forest contain a folder node carrying route `r`? -/
def hasFolder : Forest → List Char → Bool
  | .nil, _ => false
  | .page _ _ rest, r => hasFolder rest r
  | .folder _ rt cs rest, r => decide (rt = r) || hasFolder cs r || hasFolder rest r

/-- Translation of the `onClick` handler of a `Folder` button:
`if (active) return; TreeState[item.route] = !open;`. -/
def toggleFolder (asPath : List Char) (locale : Option (List Char))
    (defaultMenuCollapsed : Bool) (st : TreeState) (route : List Char) : TreeState :=
  if nodeActive asPath locale route then st
  else writeEntry st route (!(resolvedOpen st defaultMenuCollapsed route))

/-! ## Rendered rows -/

/-- One sidebar row.  A folder row records its resolved open boolean (the
source reflects it in the `li` class and the wrapper style) and its own
`active` flag; a page row records its `active` flag. -/
structure Row where
  route : List Char
  depth : Nat
  isFolderRow : Bool
  isOpen : Bool
  isActive : Bool
deriving DecidableEq, Repr

/-- Full render of the sidebar, from the source: a depth-first walk that
emits a row for EVERY node.  The boolean paired with each row is its CSS
visibility: the children of a folder are wrapped in a `div` whose display
is `none` when the folder is closed, so a row is visible exactly when every
enclosing folder is open.  `vis` is the visibility inherited from the
enclosing wrappers. -/
def renderRows (asPath : List Char) (locale : Option (List Char))
    (defaultMenuCollapsed : Bool) (st : TreeState) :
    Bool → Nat → Forest → List (Row × Bool)
  | _, _, .nil => []
  | vis, d, .page _ r rest =>
      ({ route := r, depth := d, isFolderRow := false, isOpen := false,
         isActive := nodeActive asPath locale r }, vis)
        :: renderRows asPath locale defaultMenuCollapsed st vis d rest
  | vis, d, .folder _ r cs rest =>
      ({ route := r, depth := d, isFolderRow := true,
         isOpen := resolvedOpen st defaultMenuCollapsed r,
         isActive := nodeActive asPath locale r }, vis)
        :: (renderRows asPath locale defaultMenuCollapsed st
              (vis && resolvedOpen st defaultMenuCollapsed r) (d + 1) cs
            ++ renderRows asPath locale defaultMenuCollapsed st vis d rest)

/-- Spec-side definition, following the specification's words (section
4.4): `visibleStructure` is the depth-first traversal that always emits a
folder's header row regardless of its open state, emits the folder's
children rows only when the folder's resolved `isOpen` is true, and emits
every page row it reaches. -/
def visibleStructure (asPath : List Char) (locale : Option (List Char))
    (defaultMenuCollapsed : Bool) (st : TreeState) :
    Nat → Forest → List Row
  | _, .nil => []
  | d, .page _ r rest =>
      { route := r, depth := d, isFolderRow := false, isOpen := false,
        isActive := nodeActive asPath locale r }
        :: visibleStructure asPath locale defaultMenuCollapsed st d rest
  | d, .folder _ r cs rest =>
      { route := r, depth := d, isFolderRow := true,
        isOpen := resolvedOpen st defaultMenuCollapsed r,
        isActive := nodeActive asPath locale r }
        :: ((if resolvedOpen st defaultMenuCollapsed r then
              visibleStructure asPath locale defaultMenuCollapsed st (d + 1) cs
            else [])
            ++ visibleStructure asPath locale defaultMenuCollapsed st d rest)

/-! ## Sortable type guard (`hasSortableData`) -/

/-- Small universe of JavaScript values, sufficient for the type guard:
`undefined`, `null`, booleans, numbers, strings and plain objects (a list
of own properties; later bindings are shadowed by earlier ones is not
needed — lookup takes the first). -/
inductive JSValue where
  | undefined : JSValue
  | null : JSValue
  | boolean (b : Bool) : JSValue
  | number (n : Int) : JSValue
  | str (s : List Char) : JSValue
  | obj (fields : List (List Char × JSValue)) : JSValue

/-- First binding of key `k` in a property list. -/
def lookupField : List (List Char × JSValue) → List Char → Option JSValue
  | [], _ => none
  | (k, v) :: rest, r => if k = r then some v else lookupField rest r

/-- Does the property list carry key `k`?  This is the JavaScript `in`
operator on a plain object (own properties; the records involved have no
relevant prototype chain). -/
def hasKey (fs : List (List Char × JSValue)) (k : List Char) : Bool :=
  (lookupField fs k).isSome

/-- JavaScript truthiness of a value. -/
def truthy : JSValue → Bool
  | .undefined => false
  | .null => false
  | .boolean b => b
  | .number n => decide (n ≠ 0)
  | .str s => decide (s ≠ [])
  | .obj _ => true

/-- Result of `typeof v === 'object'`: true exactly for `null` and for
objects. -/
def typeofIsObject : JSValue → Bool
  | .null => true
  | .obj _ => true
  | _ => false

/-- Property read `v[k]`.  Reading a property of `undefined` or `null`
throws a `TypeError` (`none`); on any other primitive it yields
`undefined`; on an object it yields the bound value or `undefined`. -/
def getField : JSValue → List Char → Option JSValue
  | .undefined, _ => none
  | .null, _ => none
  | .obj fs, k => some ((lookupField fs k).getD .undefined)
  | _, _ => some .undefined

/-- Property keys appearing in the guard. -/
def keyData : List Char := "data".toList

/-- Key `current`. -/
def keyCurrent : List Char := "current".toList

/-- Key `sortable`. -/
def keySortable : List Char := "sortable".toList

/-- Key `containerId`. -/
def keyContainerId : List Char := "containerId".toList

/-- Key `items`. -/
def keyItems : List Char := "items".toList

/-- Key `index`. -/
def keyIndex : List Char := "index".toList

/-- Translation of `hasSortableData`.  `none` models a thrown `TypeError`:
the source evaluates `entry.data.current`, and in the guard condition each
`in` applied to a non-object operand would throw (the `typeof` comparison
itself never throws, and the `&&` chain short-circuits). -/
def hasSortableData (entry : JSValue) : Option Bool :=
  if truthy entry = false then some false
  else match getField entry keyData with
  | none => none
  | some dref =>
    match getField dref keyCurrent with
    | none => none
    | some data =>
      if truthy data = false then some false
      else match data with
      | .obj fs =>
        if hasKey fs keySortable = false then some false
        else match lookupField fs keySortable with
        | some (.obj sfs) =>
            some (hasKey sfs keyContainerId && hasKey sfs keyItems &&
                  hasKey sfs keyIndex)
        | some .null => none
        | _ =>
            if typeofIsObject ((lookupField fs keySortable).getD .undefined) then none
            else some false
      | _ => none

/-- Spec-side definition of the shape the guard is meant to recognise,
written from the claim: the entry is truthy, `entry.data.current` is an
object that carries a `sortable` key whose value is of object type and
itself carries the keys `containerId`, `items` and `index`; only key
presence is consulted, never the bound values. -/
def sortableShapeSpec (entry : JSValue) : Bool :=
  truthy entry &&
  (match getField entry keyData with
   | some dref =>
     (match getField dref keyCurrent with
      | some (.obj fs) =>
        hasKey fs keySortable &&
        (match lookupField fs keySortable with
         | some (.obj sfs) =>
             hasKey sfs keyContainerId && hasKey sfs keyItems && hasKey sfs keyIndex
         | _ => false)
      | _ => false)
   | none => false)

/-- Domain restriction given by the TypeScript types: `entry` is `null`,
`undefined` or an object whose `data` property is an object (a ref) whose
`current` property is absent, `undefined` or an object (`Data` is a record
type). -/
def typedEntry : JSValue → Bool
  | .null => true
  | .undefined => true
  | .obj fs =>
    (match lookupField fs keyData with
     | some (.obj dfs) =>
       (match lookupField dfs keyCurrent with
        | some (.obj _) => true
        | some .undefined => true
        | none => true
        | _ => false)
     | _ => false)
  | _ => false

/-- Is the option a present `null` value? -/
def isNullOpt : Option JSValue → Bool
  | some .null => true
  | _ => false

/-- Hypothesis of the claim: `entry.data.current.sortable`, when present,
is not `null` (with a `null` there the guard's `'containerId' in
data.sortable` would throw, since `typeof null === 'object'`). -/
def sortableNotNull : JSValue → Bool
  | .obj fs =>
    (match lookupField fs keyData with
     | some (.obj dfs) =>
       (match lookupField dfs keyCurrent with
        | some (.obj cfs) => !(isNullOpt (lookupField cfs keySortable))
        | _ => true)
     | _ => true)
  | _ => true

/-! ## Lemmas about the normalizer -/

/-- With no match anywhere, the `/index` replace returns its input. -/
theorem replaceIndexOnce_no_match (s : List Char) (h : hasIndexMatch s = false) :
    replaceIndexOnce s = s := by
  induction s with
  | nil => rfl
  | cons c cs ih =>
    simp only [hasIndexMatch, Bool.or_eq_false_iff] at h
    simp [replaceIndexOnce, h.1, ih h.2]

/-- With no match anywhere, the locale replace returns its input. -/
theorem replaceLocaleOnce_no_match (l s : List Char) (h : hasLocaleMatch l s = false) :
    replaceLocaleOnce l s = s := by
  induction s with
  | nil => rfl
  | cons c cs ih =>
    simp only [hasLocaleMatch, Bool.or_eq_false_iff] at h
    simp [replaceLocaleOnce, h.1, ih h.2]

/-- When neither pattern matches anywhere in the path, `getFSRoute` is the
identity. -/
theorem getFSRoute_no_pattern (asPath : List Char) (loc : Option (List Char))
    (h : normTouches loc asPath = false) : getFSRoute asPath loc = asPath := by
  match loc with
  | none =>
    simp only [normTouches] at h
    simp [getFSRoute, replaceIndexOnce_no_match _ h]
  | some [] =>
    simp only [normTouches] at h
    simp [getFSRoute, replaceIndexOnce_no_match _ h]
  | some (c :: ls) =>
    simp only [normTouches, Bool.or_eq_false_iff] at h
    rw [getFSRoute, replaceLocaleOnce_no_match _ _ h.1, replaceIndexOnce_no_match _ h.2]

/-! ## Claim theorems: path normalizer -/

/-- Claim C2, counterexample.  `normalize` is NOT idempotent: the
non-global `replace` rewrites only the leftmost `/index(/|$)` match, so
`/index/index` normalizes to `/index` (the first `/index` is deleted, the
second survives as the captured separator is `/`), and a second
application normalizes that to the empty string. -/
theorem c2_counterexample :
    getFSRoute (getFSRoute "/index/index".toList none) none ≠
      getFSRoute "/index/index".toList none := by decide

/-- Claim C2, amended.  Applying `normalize` twice equals applying it once
for every path whose one-application result no longer contains any match
of the stripping patterns (in particular whenever a single application
removes every match); idempotence fails in general because `replace`
rewrites only the leftmost match. -/
theorem c2_normalize_idempotent_when_fully_stripped (p : List Char)
    (loc : Option (List Char)) (h : normTouches loc (getFSRoute p loc) = false) :
    getFSRoute (getFSRoute p loc) loc = getFSRoute p loc :=
  getFSRoute_no_pattern _ _ h

/-- Claim C2, witness for the amended theorem at `p = "/a/index"` with no
locale: one application yields `/a`, which the second application fixes. -/
theorem c2_witness :
    normTouches none (getFSRoute "/a/index".toList none) = false ∧
    getFSRoute (getFSRoute "/a/index".toList none) none =
      getFSRoute "/a/index".toList none :=
  ⟨by decide, c2_normalize_idempotent_when_fully_stripped "/a/index".toList none (by decide)⟩

/-- Claim C5, counterexample.  The source compares the normalized CURRENT
path against the node's route taken verbatim; it does not normalize the
node's route.  For the node route `/a/index` and current canonical path
`/a`, the claim's equation `normalize(node.route) + '/' ==
currentCanonicalPath + '/'` holds, yet the node is not active. -/
theorem c5_counterexample :
    nodeActive "/a".toList none "/a/index".toList = false ∧
    getFSRoute "/a/index".toList none ++ ['/'] =
      getFSRoute "/a".toList none ++ ['/'] := by decide

/-- Claim C5, amended.  A node is active iff the normalized current path
equals the node's route verbatim: appending `/` to both sides makes the
comparison trailing-slash-insensitive but it is still exact equality, so a
route that is a strict extension or strict initial segment of the current
canonical path is never active (no prefix matching, no fuzzy matching). -/
theorem c5_active_iff_exact_route_equality (ap : List Char)
    (loc : Option (List Char)) (r : List Char) :
    nodeActive ap loc r = true ↔ getFSRoute ap loc = r := by
  simp only [nodeActive, decide_eq_true_eq]
  exact List.append_left_inj ['/']

/-- Claim C8, counterexample (and confirmation of the claim's example).
In the template literal the backslash of `\.` is dropped, so the locale
pattern starts with the regex wildcard dot rather than a literal dot: for
locale `fr` the path `/afr` — which contains no literal `.fr` segment, so
under the claim it would pass through the locale step unchanged — is
rewritten to `/` (the wildcard consumes `a`).  The claim's example
`/fr/guides/index → /guides` does hold, but only because the wildcard
matches the leading slash of `/fr/`. -/
theorem c8_counterexample :
    getFSRoute "/afr".toList (some "fr".toList) = "/".toList ∧
    replaceIndexOnce (replaceLocaleLiteralOnce "fr".toList "/afr".toList) =
      "/afr".toList ∧
    getFSRoute "/fr/guides/index".toList (some "fr".toList) =
      "/guides".toList := by decide

/-- Claim C8, amended.  The locale-stripping step removes exactly the
characters of the leftmost match of ⟨any single non-line-terminator
character⟩ ++ locale ++ ⟨slash or end⟩, keeping the captured separator:
the leading dot of the pattern is the regex wildcard, not a literal dot,
so one arbitrary path character is consumed together with the locale
text.  This theorem characterises the rewrite: it deletes the
`1 + locale.length` characters at the leftmost match position and nothing
else (and leaves the path untouched when there is no match). -/
theorem c8_locale_strip_deletes_wildcard_match (l p : List Char) :
    replaceLocaleOnce l p =
      (match firstLocaleMatchPos l p with
       | none => p
       | some i => p.take i ++ p.drop (i + 1 + l.length)) := by
  induction p with
  | nil => rfl
  | cons c cs ih =>
    cases h : isLocaleMatchAt l (c :: cs) with
    | true => simp [replaceLocaleOnce, firstLocaleMatchPos, h]
    | false =>
      rw [replaceLocaleOnce, if_neg (by simp [h]), firstLocaleMatchPos,
        if_neg (by simp [h])]
      cases hfp : firstLocaleMatchPos l cs with
      | none =>
        rw [hfp] at ih
        simp [ih]
      | some j =>
        rw [hfp] at ih
        have harith : j + 1 + 1 + l.length = j + 1 + l.length + 1 := by omega
        simp [ih, harith, List.take_succ_cons, List.drop_succ_cons]

/-- Claim C9, counterexample.  `getFSRoute` is not exception-free for
every locale value: the locale is interpolated into the pattern without
escaping, so the locale `(` yields the pattern `.((/|$)`, whose group
parentheses are unbalanced — `new RegExp` throws a `SyntaxError` before
any matching happens, instead of returning a string. -/
theorem c9_counterexample :
    getFSRouteChecked "/x".toList (some "(".toList) = Except.error () := by rfl

/-- Claim C9, amended.  For every raw path and every locale whose
interpolation yields a well-formed pattern of literal characters (every
real locale tag), `normalize` is a pure total function returning a string;
malformed or empty paths are no error, and when no pattern matches the
input passes through unchanged.  Locale values containing regex syntax
can instead make the `RegExp` construction throw. -/
theorem c9_normalize_pass_through_when_no_match (p : List Char)
    (loc : Option (List Char)) (h : normTouches loc p = false) :
    getFSRoute p loc = p :=
  getFSRoute_no_pattern p loc h

/-- Claim C9, witness for the amended theorem: `/plain` with locale `fr`
contains no match of either pattern and passes through unchanged. -/
theorem c9_witness :
    normTouches (some "fr".toList) "/plain".toList = false ∧
    getFSRoute "/plain".toList (some "fr".toList) = "/plain".toList :=
  ⟨by decide, c9_normalize_pass_through_when_no_match "/plain".toList
    (some "fr".toList) (by decide)⟩

/-! ## Lemmas about the sidebar state -/

/-- Reading back through a write: the written route answers with the new
value, every other route is unaffected. -/
theorem lookup_writeEntry (st : TreeState) (r k : List Char) (b : Bool) :
    lookupSt (writeEntry st r b) k = if r = k then some b else lookupSt st k := rfl

/-- Characterisation of active-route discovery: a route reads back `true`
when the forest carries a folder with that route and that route is active
(the current canonical path equals it); every other route reads back
exactly what it read before. -/
theorem discover_lookup (ap : List Char) (loc : Option (List Char)) (f : Forest)
    (st : TreeState) (r : List Char) :
    lookupSt (discover ap loc st f) r =
      if hasFolder f r && nodeActive ap loc r then some true else lookupSt st r := by
  induction f generalizing st with
  | nil => simp [discover, hasFolder]
  | page n rt rest ih => simp [discover, hasFolder, ih]
  | folder n rt cs rest ihc ihr =>
    rw [discover, ihr, ihc]
    by_cases h1 : rt = r
    · subst h1
      cases ha : nodeActive ap loc rt <;> cases hc : hasFolder cs rt <;>
        cases hr2 : hasFolder rest rt <;>
          simp [hasFolder, ha, hc, hr2, lookup_writeEntry]
    · cases ha : nodeActive ap loc r <;> cases hat : nodeActive ap loc rt <;>
        cases hc : hasFolder cs r <;> cases hr2 : hasFolder rest r <;>
          simp [hasFolder, ha, hat, hc, hr2, lookup_writeEntry, h1]

/-- Filtered render: the CSS-visible rows of the full render are the
guarded traversal when the inherited visibility is on, and nothing when
some enclosing wrapper hides the subtree. -/
theorem renderRows_filter (ap : List Char) (loc : Option (List Char)) (dmc : Bool)
    (st : TreeState) (f : Forest) (vis : Bool) (d : Nat) :
    ((renderRows ap loc dmc st vis d f).filter (fun p => p.2)).map (fun p => p.1) =
      if vis then visibleStructure ap loc dmc st d f else [] := by
  induction f generalizing vis d with
  | nil => cases vis <;> simp [renderRows, visibleStructure]
  | page n r rest ih => cases vis <;> simp [renderRows, visibleStructure, ih]
  | folder n r cs rest ihc ihr =>
    cases vis <;> cases hop : resolvedOpen st dmc r <;>
      simp [renderRows, visibleStructure, hop, ihc, ihr]

/-! ## Claim theorems: sidebar state -/

/-- Claim C1, counterexample.  With the tree
`Folder "/guides" [Page "/guides/intro"]` and current path
`/guides/intro`, active-route discovery does NOT write
`ExpansionState["/guides"] = true`: the folder's own `active` test is an
exact route comparison, `/guides/intro/ === /guides/` is false, so the
effect never fires and the route stays unset. -/
theorem c1_counterexample :
    lookupSt
      (discover "/guides/intro".toList none []
        (Forest.folder "Guides".toList "/guides".toList
          (Forest.page "Intro".toList "/guides/intro".toList Forest.nil)
          Forest.nil))
      "/guides".toList ≠ some true := by decide

/-- Claim C1, amended.  Active-route discovery writes `expanded = true`
exactly for the routes of folders whose OWN route equals the current
canonical path (trailing-slash-insensitively); the ancestor folders of an
active leaf page are not written — they can only appear open through the
default policy — and sibling folders are untouched: every route other
than an exactly-matching folder route reads back its previous value. -/
theorem c1_discovery_writes_exact_match_only (ap : List Char)
    (loc : Option (List Char)) (st : TreeState) (f : Forest) (r : List Char) :
    lookupSt (discover ap loc st f) r =
      if hasFolder f r && nodeActive ap loc r then some true else lookupSt st r :=
  discover_lookup ap loc f st r

/-- Claim C3, confirmed.  The sidebar render is a depth-first traversal
that emits every folder's header row regardless of that folder's open
state and emits the rows of a folder's children exactly when its resolved
`isOpen` is true: the CSS-visible rows of the full render (children of a
closed folder sit in a `display:none` wrapper) are precisely the sequence
produced by the guarded traversal `visibleStructure`, in which the
children of a closed folder are absent. -/
theorem c3_visible_rows_are_guarded_traversal (ap : List Char)
    (loc : Option (List Char)) (dmc : Bool) (st : TreeState) (d : Nat) (f : Forest) :
    ((renderRows ap loc dmc st true d f).filter (fun p => p.2)).map (fun p => p.1) =
      visibleStructure ap loc dmc st d f := by
  simp [renderRows_filter]

/-- Claim C4, counterexample.  The folder `/guides` containing the active
page `/guides/intro` is NOT active (the `active` test is an exact route
comparison), so its toggle is not a no-op: starting from the empty
expansion state, the click writes an explicit entry. -/
theorem c4_counterexample :
    nodeActive "/guides/intro".toList none "/guides".toList = false ∧
    toggleFolder "/guides/intro".toList none false [] "/guides".toList ≠ [] := by
  decide

/-- Claim C4, amended.  The user toggle is a no-op exactly on a folder
that is itself active — one whose own route equals the current canonical
path; for such a folder the handler returns before touching any state.  A
folder that merely contains the active page is not active and can be
collapsed by a direct toggle. -/
theorem c4_toggle_noop_on_active_folder (ap : List Char) (loc : Option (List Char))
    (dmc : Bool) (st : TreeState) (r : List Char) (h : nodeActive ap loc r = true) :
    toggleFolder ap loc dmc st r = st := by
  simp [toggleFolder, h]

/-- Claim C4, witness: navigating to `/guides` itself makes the folder
`/guides` active, and its toggle then leaves the state unchanged. -/
theorem c4_witness :
    nodeActive "/guides".toList none "/guides".toList = true ∧
    toggleFolder "/guides".toList none false [] "/guides".toList = [] :=
  ⟨by decide,
    c4_toggle_noop_on_active_folder "/guides".toList none false [] "/guides".toList
      (by decide)⟩

/-- Claim C6, confirmed.  Toggling a non-active folder writes the negation
of its resolved open boolean as an explicit entry, so one toggle flips the
resolved boolean exactly once, and a second toggle writes the negation of
the flipped value, restoring the original resolved boolean. -/
theorem c6_toggle_flips_once_and_twice_restores (ap : List Char)
    (loc : Option (List Char)) (dmc : Bool) (st : TreeState) (r : List Char)
    (h : nodeActive ap loc r = false) :
    lookupSt (toggleFolder ap loc dmc st r) r =
      some (!(resolvedOpen st dmc r)) ∧
    resolvedOpen (toggleFolder ap loc dmc st r) dmc r =
      !(resolvedOpen st dmc r) ∧
    resolvedOpen (toggleFolder ap loc dmc (toggleFolder ap loc dmc st r) r) dmc r =
      resolvedOpen st dmc r := by
  simp [toggleFolder, h, resolvedOpen, writeEntry, lookupSt]

/-- Claim C6, witness: with current path `/elsewhere`, the folder
`/guides` is not active; from the empty state with `defaultCollapsed =
false` its resolved boolean is `true`, a toggle records `false`, and a
second toggle restores `true`. -/
theorem c6_witness :
    nodeActive "/elsewhere".toList none "/guides".toList = false ∧
    (lookupSt (toggleFolder "/elsewhere".toList none false [] "/guides".toList)
        "/guides".toList = some (!(resolvedOpen [] false "/guides".toList)) ∧
      resolvedOpen (toggleFolder "/elsewhere".toList none false [] "/guides".toList)
          false "/guides".toList = !(resolvedOpen [] false "/guides".toList) ∧
      resolvedOpen
          (toggleFolder "/elsewhere".toList none false
            (toggleFolder "/elsewhere".toList none false [] "/guides".toList)
            "/guides".toList)
          false "/guides".toList = resolvedOpen [] false "/guides".toList) :=
  ⟨by decide,
    c6_toggle_flips_once_and_twice_restores "/elsewhere".toList none false []
      "/guides".toList (by decide)⟩

/-- Claim C7, confirmed.  Active-route discovery is a one-way ratchet on
the expansion state: after a discovery pass, every route either reads back
exactly its previous value or reads back `true` — discovery never writes
`false` and never collapses a previously expanded folder. -/
theorem c7_discovery_never_writes_false (ap : List Char)
    (loc : Option (List Char)) (st : TreeState) (f : Forest) (r : List Char) :
    lookupSt (discover ap loc st f) r = lookupSt st r ∨
    lookupSt (discover ap loc st f) r = some true := by
  rw [discover_lookup]
  by_cases h : (hasFolder f r && nodeActive ap loc r) = true
  · right
    rw [if_pos h]
  · left
    rw [if_neg h]

/-! ## Claim theorems: sortable type guard -/

/-- Claim C10, confirmed.  Over entries of the declared TypeScript shape
whose `data.current.sortable`, when present, is not `null`, the guard
never throws and returns `false` for a nullish entry, for an
absent/falsy `data.current` and for a `data.current` lacking a `sortable`
key; it returns `true` exactly when `data.current` carries a `sortable`
value of object type that itself carries the keys `containerId`, `items`
and `index`.  `sortableShapeSpec` consults only truthiness and key
presence — never the values bound to the three keys — so the equality
also shows that those values are not inspected. -/
theorem c10_guard_decides_key_presence (entry : JSValue)
    (ht : typedEntry entry = true) (hn : sortableNotNull entry = true) :
    hasSortableData entry = some (sortableShapeSpec entry) := by
  match entry with
  | .null => rfl
  | .undefined => rfl
  | .boolean b => simp [typedEntry] at ht
  | .number n => simp [typedEntry] at ht
  | .str s => simp [typedEntry] at ht
  | .obj fs =>
    cases hd : lookupField fs keyData with
    | none => simp [typedEntry, hd] at ht
    | some dv =>
      match dv with
      | .obj dfs =>
        cases hc : lookupField dfs keyCurrent with
        | none =>
          simp [hasSortableData, sortableShapeSpec, getField, truthy, hd, hc]
        | some cv =>
          match cv with
          | .undefined =>
            simp [hasSortableData, sortableShapeSpec, getField, truthy, hd, hc]
          | .obj cfs =>
            cases hs : lookupField cfs keySortable with
            | none =>
              simp [hasSortableData, sortableShapeSpec, getField, truthy, hasKey,
                hd, hc, hs]
            | some sv =>
              match sv with
              | .null =>
                simp [sortableNotNull, hd, hc, hs, isNullOpt] at hn
              | .obj sfs =>
                simp [hasSortableData, sortableShapeSpec, getField, truthy, hasKey,
                  hd, hc, hs]
              | .undefined =>
                simp [hasSortableData, sortableShapeSpec, getField, truthy, hasKey,
                  hd, hc, hs, typeofIsObject]
              | .boolean b =>
                simp [hasSortableData, sortableShapeSpec, getField, truthy, hasKey,
                  hd, hc, hs, typeofIsObject]
              | .number n =>
                simp [hasSortableData, sortableShapeSpec, getField, truthy, hasKey,
                  hd, hc, hs, typeofIsObject]
              | .str s =>
                simp [hasSortableData, sortableShapeSpec, getField, truthy, hasKey,
                  hd, hc, hs, typeofIsObject]
          | .null => simp [typedEntry, hd, hc] at ht
          | .boolean b => simp [typedEntry, hd, hc] at ht
          | .number n => simp [typedEntry, hd, hc] at ht
          | .str s => simp [typedEntry, hd, hc] at ht
      | .undefined => simp [typedEntry, hd] at ht
      | .null => simp [typedEntry, hd] at ht
      | .boolean b => simp [typedEntry, hd] at ht
      | .number n => simp [typedEntry, hd] at ht
      | .str s => simp [typedEntry, hd] at ht

/-- Well-shaped sample entry used by the witness of claim C10. -/
def sampleSortableEntry : JSValue :=
  JSValue.obj [(keyData, JSValue.obj [(keyCurrent, JSValue.obj [(keySortable,
    JSValue.obj [(keyContainerId, JSValue.str "c".toList),
      (keyItems, JSValue.number 0), (keyIndex, JSValue.number 0)])])])]

/-- Claim C10, witness: a fully sortable-shaped entry satisfies both
hypotheses, and on it the guard agrees with the key-presence predicate
(both say `true`). -/
theorem c10_witness :
    typedEntry sampleSortableEntry = true ∧
    sortableNotNull sampleSortableEntry = true ∧
    hasSortableData sampleSortableEntry = some (sortableShapeSpec sampleSortableEntry) :=
  ⟨by decide, by decide,
    c10_guard_decides_key_presence sampleSortableEntry (by decide) (by decide)⟩
